import Mathlib

set_option maxHeartbeats 1000000

/-! Verification of the WebDAV storage backend in
`src/storage/plugins/CurlStorage.cxx`: the PROPFIND response state machine,
the tolerant per-field parsers, the Depth-0 info and Depth-1 listing
specializations, and the path mapping of the storage interface, embedded
shallowly over `List Char` and `String`.  Helpers of the repository that
are not among the provided sources (`storage/FileInfo.hxx`,
`fs/Traits.hxx`, `util/UriUtil.cxx`, `util/StringCompare.hxx`,
`util/TimeParser.cxx`) are modelled from the specification and say so in
their doc comments. -/

/-- File kind of a storage object. Modelled from the spec: the header
`storage/FileInfo.hxx` is not among the provided sources; the spec's data
model gives the kind as one of Regular, Directory, Other. -/
inductive FileType
  | OTHER
  | REGULAR
  | DIRECTORY
  deriving DecidableEq

/-- System-clock time points, with `Timestamp.unknown` standing for the
sentinel `std::chrono::system_clock::time_point::min()`. -/
inductive Timestamp
  | unknown
  | known (seconds : Nat)
  deriving DecidableEq

/-- The (relevant) contents of a response element (`struct DavResponse`,
CurlStorage.cxx lines 159-170). -/
structure DavResponse where
  href : String
  status : Nat
  collection : Bool
  mtime : Timestamp
  length : Nat
  deriving DecidableEq

/-- A default-constructed `DavResponse`: empty href, status 0, not a
collection, sentinel mtime, length 0. -/
def DavResponse.default : DavResponse :=
  ⟨"", 0, false, Timestamp.unknown, 0⟩

/-- `DavResponse::Check`: a record is valid iff its href is non-empty. -/
def DavResponse.Check (r : DavResponse) : Bool :=
  !r.href.isEmpty

/-- Numeric value of a run of decimal digits, most significant first. -/
def digitsVal (ds : List Char) : Nat :=
  ds.foldl (fun a c => a * 10 + (c.toNat - 48)) 0

/-- Characters treated as whitespace by the C `strtoul` family. -/
def isSpaceChar (c : Char) : Bool :=
  c = ' ' || c = '\t' || c = '\n' || c = '\r' || c = '\x0b' || c = '\x0c'

/-- Model of C `strtoul(s, nullptr, 10)` as used by this file: skip leading
whitespace, then read a run of decimal digits; the value is 0 when no digit
follows. -/
def strtoulModel (s : List Char) : Nat :=
  digitsVal ((s.dropWhile isSpaceChar).takeWhile Char.isDigit)

/-- `ParseStatus` (lines 172-187): skip to the first space; without one the
status code is 0, otherwise it is the number read after that space. -/
def ParseStatus (s : List Char) : Nat :=
  match s.dropWhile (fun c => c != ' ') with
  | [] => 0
  | _ :: rest => strtoulModel rest

/-- `ParseU64` (lines 206-216): `strtoull` in base 10. -/
def ParseU64 (s : List Char) : Nat :=
  strtoulModel s

/-- Month names of the RFC-1123-like timestamp format. -/
def monthNames : List (List Char) :=
  [ "Jan", "Feb", "Mar", "Apr", "May", "Jun",
    "Jul", "Aug", "Sep", "Oct", "Nov", "Dec"].map String.toList

/-- Weekday names of the RFC-1123-like timestamp format. -/
def weekdayNames : List (List Char) :=
  [ "Sun", "Mon", "Tue", "Wed", "Thu", "Fri", "Sat"].map String.toList

/-- Expect one literal character at the head of the input. -/
def expectChar (c : Char) : List Char → Option (List Char)
  | [] => none
  | x :: rest => if x = c then some rest else none

/-- Read a non-empty run of decimal digits, returning its value and the
rest of the input. -/
def readDigits (l : List Char) : Option (Nat × List Char) :=
  match l.takeWhile Char.isDigit with
  | [] => none
  | ds => some (digitsVal ds, l.dropWhile Char.isDigit)

/-- Modelled from the spec: `ParseTimePoint` (util/TimeParser, not among
the provided sources) matches its argument against the RFC-1123-like
format "%a, %d %b %Y %T %Z" and fails on any mismatch; the numeric
encoding of the resulting time point abstracts the calendar arithmetic. -/
def ParseTimePoint (s : String) : Option Nat := do
  let l := s.toList
  let wd := l.takeWhile Char.isAlpha
  if wd ∈ weekdayNames then
    let l ← expectChar ',' (l.dropWhile Char.isAlpha)
    let l ← expectChar ' ' l
    let (day, l) ← readDigits l
    if 1 ≤ day ∧ day ≤ 31 then
      let l ← expectChar ' ' l
      let mon := l.takeWhile Char.isAlpha
      if mon ∈ monthNames then
        let l ← expectChar ' ' (l.dropWhile Char.isAlpha)
        let (year, l) ← readDigits l
        let l ← expectChar ' ' l
        let (hh, l) ← readDigits l
        let l ← expectChar ':' l
        let (mm, l) ← readDigits l
        let l ← expectChar ':' l
        let (ss, l) ← readDigits l
        let l ← expectChar ' ' l
        let zone := l.takeWhile Char.isAlpha
        if hh ≤ 23 ∧ mm ≤ 59 ∧ ss ≤ 60 ∧ zone ≠ [] then
          some ((((year * 12 + monthNames.indexOf mon) * 31 + day) * 86400)
                + hh * 3600 + mm * 60 + ss)
        else none
      else none
    else none
  else none

/-- `ParseTimeStamp` (lines 189-204): total wrapper around the time-point
parse, degrading any failure to the sentinel value. -/
def ParseTimeStamp (s : String) : Timestamp :=
  match ParseTimePoint s with
  | none => Timestamp.unknown
  | some t => Timestamp.known t

/-- Parser states of `PropfindOperation` (lines 225-233). -/
inductive State
  | ROOT
  | RESPONSE
  | HREF
  | STATUS
  | TYPE
  | MTIME
  | LENGTH
  deriving DecidableEq

/-- The mutable pieces of `PropfindOperation` relevant to parsing: the
current state and the record being accumulated. -/
structure PropfindState where
  state : State
  response : DavResponse
  deriving DecidableEq

/-- Parser state at the start of an operation. -/
def initialPropfind : PropfindState :=
  ⟨State.ROOT, DavResponse.default⟩

/-- `PropfindOperation::StartElement` (lines 296-328). -/
def PropfindOperation.StartElement (ps : PropfindState) (name : String) :
    PropfindState :=
  match ps.state with
  | State.ROOT =>
      if name = "DAV:|response" then { ps with state := State.RESPONSE }
      else ps
  | State.RESPONSE =>
      if name = "DAV:|href" then { ps with state := State.HREF }
      else if name = "DAV:|status" then { ps with state := State.STATUS }
      else if name = "DAV:|resourcetype" then { ps with state := State.TYPE }
      else if name = "DAV:|getlastmodified" then { ps with state := State.MTIME }
      else if name = "DAV:|getcontentlength" then { ps with state := State.LENGTH }
      else ps
  | State.TYPE =>
      if name = "DAV:|collection" then
        { ps with response := { ps.response with collection := true } }
      else ps
  | State.HREF => ps
  | State.STATUS => ps
  | State.LENGTH => ps
  | State.MTIME => ps

/-- `PropfindOperation::FinishResponse` (lines 266-270): deliver the
record when `Check` holds, then reset the accumulator; the first component
is the new accumulator, the second the emitted record, if any. -/
def PropfindOperation.FinishResponse (r : DavResponse) :
    DavResponse × Option DavResponse :=
  (DavResponse.default, if r.Check then some r else none)

/-- `PropfindOperation::EndElement` (lines 330-368), also returning the
record emitted by `FinishResponse`, if any. -/
def PropfindOperation.EndElement (ps : PropfindState) (name : String) :
    PropfindState × Option DavResponse :=
  match ps.state with
  | State.ROOT => (ps, none)
  | State.RESPONSE =>
      if name = "DAV:|response" then
        let fr := PropfindOperation.FinishResponse ps.response
        (⟨State.ROOT, fr.1⟩, fr.2)
      else (ps, none)
  | State.HREF =>
      (if name = "DAV:|href" then { ps with state := State.RESPONSE } else ps,
       none)
  | State.STATUS =>
      (if name = "DAV:|status" then { ps with state := State.RESPONSE } else ps,
       none)
  | State.TYPE =>
      (if name = "DAV:|resourcetype" then { ps with state := State.RESPONSE } else ps,
       none)
  | State.MTIME =>
      (if name = "DAV:|getlastmodified" then { ps with state := State.RESPONSE } else ps,
       none)
  | State.LENGTH =>
      (if name = "DAV:|getcontentlength" then { ps with state := State.RESPONSE } else ps,
       none)

/-- `PropfindOperation::CharacterData` (lines 370-393): in the four
extraction states the text fragment replaces the corresponding field. -/
def PropfindOperation.CharacterData (ps : PropfindState) (s : String) :
    PropfindState :=
  match ps.state with
  | State.ROOT => ps
  | State.RESPONSE => ps
  | State.TYPE => ps
  | State.HREF => { ps with response := { ps.response with href := s } }
  | State.STATUS =>
      { ps with response := { ps.response with status := ParseStatus s.toList } }
  | State.MTIME =>
      { ps with response := { ps.response with mtime := ParseTimeStamp s } }
  | State.LENGTH =>
      { ps with response := { ps.response with length := ParseU64 s.toList } }

/-- The storage-level stat result. Modelled from the spec: the struct
itself lives in `storage/FileInfo.hxx`, which is not among the provided
sources; the spec gives kind, unsigned size and a timestamp. -/
structure StorageFileInfo where
  type : FileType
  size : Nat
  mtime : Timestamp
  deriving DecidableEq

/-- Modelled from the spec: default-constructed info of kind Other, with
zero size and the default timestamp. -/
def StorageFileInfo.other : StorageFileInfo :=
  ⟨FileType.OTHER, 0, Timestamp.unknown⟩

/-- The info built from one qualifying record, as written by
`HttpGetInfoOperation::OnDavResponse` (lines 419-423). -/
def infoFromRecord (r : DavResponse) : StorageFileInfo :=
  ⟨if r.collection then FileType.DIRECTORY else FileType.REGULAR,
   r.length, r.mtime⟩

/-- `HttpGetInfoOperation::OnDavResponse` (lines 415-424) as a fold step
over the accumulated info. -/
def HttpGetInfoOperation.OnDavResponse (info : StorageFileInfo)
    (r : DavResponse) : StorageFileInfo :=
  if r.status ≠ 200 then info else infoFromRecord r

/-- Result of the Depth-0 info operation over the sequence of records its
PROPFIND pass emitted. -/
def getInfoResult (rs : List DavResponse) : StorageFileInfo :=
  rs.foldl HttpGetInfoOperation.OnDavResponse StorageFileInfo.other

/-- Helper: `find?` over an append scans the left list first. -/
theorem find?_append_eq {α : Type} (p : α → Bool) (l₁ l₂ : List α) :
    (l₁ ++ l₂).find? p =
      match l₁.find? p with
      | some x => some x
      | none => l₂.find? p := by
  induction l₁ with
  | nil => rfl
  | cons a l ih =>
      by_cases h : p a
      · simp [List.find?_cons, h]
      · simp [List.find?_cons, h, ih]

/-- Helper: the info fold is decided by the last status-200 record. -/
theorem getInfo_foldl_acc (rs : List DavResponse) : ∀ acc : StorageFileInfo,
    rs.foldl HttpGetInfoOperation.OnDavResponse acc =
      match rs.reverse.find? (fun r => r.status == 200) with
      | none => acc
      | some r => infoFromRecord r := by
  induction rs with
  | nil => intro acc; rfl
  | cons r rest ih =>
      intro acc
      rw [List.foldl_cons, ih, List.reverse_cons,
          find?_append_eq (fun r => r.status == 200) rest.reverse]
      rcases h : rest.reverse.find? (fun r => r.status == 200) with _ | x
      · simp only [h, List.find?_cons, List.find?_nil]
        by_cases h200 : r.status = 200
        · have hb : (r.status == 200) = true := by simp [h200]
          simp [hb, HttpGetInfoOperation.OnDavResponse, h200]
        · have hb : (r.status == 200) = false := by simp [h200]
          simp [hb, HttpGetInfoOperation.OnDavResponse, h200]
      · simp only [h]

/-- C1: for the Depth-0 info operation, only status-200 records update the
result, a record sequence without one yields the default Other info, and
when several status-200 records occur the result is the info built (kind,
size, mtime) from the last of them. -/
theorem C1_info_last_200_wins (rs : List DavResponse) :
    getInfoResult rs =
      match rs.reverse.find? (fun r => r.status == 200) with
      | none => StorageFileInfo.other
      | some r => infoFromRecord r :=
  getInfo_foldl_acc rs StorageFileInfo.other

/-- C3: processing the end tag of a `response` element (in the state the
machine holds while inside one), the accumulated record is delivered iff
its href is non-empty, and the accumulator is reset to the default record
in either case. -/
theorem C3_finish_response (r : DavResponse) :
    PropfindOperation.EndElement ⟨State.RESPONSE, r⟩ "DAV:|response" =
      (⟨State.ROOT, ⟨"", 0, false, Timestamp.unknown, 0⟩⟩,
       if r.href.isEmpty then none else some r) := by
  simp only [PropfindOperation.EndElement, PropfindOperation.FinishResponse,
    DavResponse.Check, DavResponse.default, if_pos rfl]
  cases h : r.href.isEmpty <;> simp [h]

/-- C7: in each of the four extraction states, a text callback replaces
the corresponding record field outright, so two successive fragments for
the same element leave only the value derived from the last one. -/
theorem C7_text_overwrite (st : State)
    (h : st = State.HREF ∨ st = State.STATUS ∨ st = State.MTIME ∨
         st = State.LENGTH)
    (r : DavResponse) (t1 t2 : String) :
    PropfindOperation.CharacterData
        (PropfindOperation.CharacterData ⟨st, r⟩ t1) t2 =
      PropfindOperation.CharacterData ⟨st, r⟩ t2 := by
  rcases h with h | h | h | h <;> subst h <;> rfl

/-- Helper: dropping while a character differs consumes a list in which it
never occurs. -/
theorem dropWhile_ne_nil (a : Char) :
    ∀ l : List Char, a ∉ l → l.dropWhile (fun c => c != a) = [] := by
  intro l
  induction l with
  | nil => intro _; rfl
  | cons c t ih =>
      intro h
      have hc : (c != a) = true := by
        simp only [bne_iff_ne, ne_eq]
        intro e
        exact h (e ▸ List.mem_cons_self c t)
      simp only [List.dropWhile_cons, hc, if_pos]
      exact ih (fun hx => h (List.mem_cons_of_mem c hx))

/-- Helper: `takeWhile`/`dropWhile` with a disequality test split a list at
the first occurrence of the tested character. -/
theorem takeWhile_dropWhile_ne_append (a : Char) :
    ∀ pre l : List Char, a ∉ pre →
      (pre ++ a :: l).takeWhile (fun c => c != a) = pre ∧
      (pre ++ a :: l).dropWhile (fun c => c != a) = a :: l := by
  intro pre
  induction pre with
  | nil =>
      intro l _
      constructor
      · simp [List.takeWhile_cons]
      · simp [List.dropWhile_cons]
  | cons c t ih =>
      intro l h
      have hc : (c != a) = true := by
        simp only [bne_iff_ne, ne_eq]
        intro e
        exact h (e ▸ List.mem_cons_self c t)
      obtain ⟨h1, h2⟩ := ih l (fun hx => h (List.mem_cons_of_mem c hx))
      constructor
      · simp only [List.cons_append, List.takeWhile_cons, hc, if_pos, h1]
      · simp only [List.cons_append, List.dropWhile_cons, hc, if_pos, h2]

/-- Helper: `takeWhile` of a list on which the test always fails is empty. -/
theorem takeWhile_nil_of_none {p : Char → Bool} :
    ∀ l : List Char, (∀ c ∈ l, p c = false) → l.takeWhile p = [] := by
  intro l h
  cases l with
  | nil => rfl
  | cons c t => simp [List.takeWhile_cons, h c (List.mem_cons_self c t)]

/-- Helper: membership survives `dropWhile`. -/
theorem mem_of_mem_dropWhileChar {p : Char → Bool} :
    ∀ l : List Char, ∀ c, c ∈ l.dropWhile p → c ∈ l := by
  intro l
  induction l with
  | nil => intro c hc; exact hc
  | cons x t ih =>
      intro c hc
      by_cases hx : p x
      · rw [List.dropWhile_cons, if_pos hx] at hc
        exact List.mem_cons_of_mem x (ih c hc)
      · rw [List.dropWhile_cons, if_neg hx] at hc
        exact hc

/-- C5: per-field parsing is total and never fails the operation: a status
text without a space parses to code 0 and otherwise to the number read
after the first space; a length text without any digit parses to 0; and a
modification-time text the RFC-1123-like parse rejects degrades to the
sentinel timestamp instead of an error. -/
theorem C5_field_parsing :
    (∀ s : List Char, (' ' : Char) ∉ s → ParseStatus s = 0) ∧
    (∀ pre rest : List Char, (' ' : Char) ∉ pre →
      ParseStatus (pre ++ ' ' :: rest) = strtoulModel rest) ∧
    (∀ s : List Char, (∀ c ∈ s, c.isDigit = false) → ParseU64 s = 0) ∧
    (∀ s : String, ParseTimePoint s = none →
      ParseTimeStamp s = Timestamp.unknown) := by
  refine ⟨?_, ?_, ?_, ?_⟩
  · intro s h
    unfold ParseStatus
    rw [dropWhile_ne_nil ' ' s h]
  · intro pre rest h
    unfold ParseStatus
    rw [(takeWhile_dropWhile_ne_append ' ' pre rest h).2]
  · intro s h
    unfold ParseU64 strtoulModel
    rw [takeWhile_nil_of_none _
      (fun c hc => h c (mem_of_mem_dropWhileChar s c hc))]
    rfl
  · intro s h
    unfold ParseTimeStamp
    rw [h]

/-- Witness for C5 at concrete field texts. -/
theorem C5_field_parsing_witness :
    ParseStatus (("HTTP/1.1").toList) = 0 ∧
    ParseStatus (("HTTP/1.1").toList ++ ' ' :: ("404 Not Found").toList) = 404 ∧
    ParseU64 (("abc").toList) = 0 ∧
    ParseTimeStamp ("not a date") = Timestamp.unknown :=
  ⟨C5_field_parsing.1 _ (by decide),
   (C5_field_parsing.2.1 _ _ (by decide)).trans (by decide),
   C5_field_parsing.2.2.1 _ (by decide),
   C5_field_parsing.2.2.2 _ (by decide)⟩

/-- Modelled from the spec: helper of `uri_get_path` locating the scheme
marker "://"; gives the text after the first occurrence, if any. -/
def findSchemeMark : List Char → Option (List Char)
  | [] => none
  | ':' :: '/' :: '/' :: rest => some rest
  | _ :: rest => findSchemeMark rest

/-- Modelled from the spec: `uri_get_path` (util/UriUtil, not among the
provided sources) extracts the URL path component: for a URI carrying a
scheme marker the suffix starting at the first '/' after the marker (none
when there is no such slash), otherwise the whole string. -/
def uriGetPath (uri : List Char) : Option (List Char) :=
  match findSchemeMark uri with
  | none => some uri
  | some afterMark =>
      match afterMark.dropWhile (fun c => c != '/') with
      | [] => none
      | l => some l

/-- Modelled from the spec: `StringAfterPrefix` (util/StringCompare, not
among the provided sources): the remainder after a literal prefix, none
when the string does not start with it. -/
def stringAfterPref (pre s : List Char) : Option (List Char) :=
  if s.take pre.length = pre then some (s.drop pre.length) else none

/-- `UriPathOrSlash` (lines 438-446): the path of the request URI, "/"
when it has none. -/
def UriPathOrSlash (uri : List Char) : List Char :=
  (uriGetPath uri).getD ['/']

/-- `HttpListDirectoryOperation::HrefToEscapedName` (lines 475-495). -/
def HrefToEscapedName (base_path : List Char) (href : List Char) :
    Option (List Char) :=
  match uriGetPath href with
  | none => none
  | some path =>
      match stringAfterPref base_path path with
      | none => none
      | some [] => none
      | some rest =>
          match rest.dropWhile (fun c => c != '/') with
          | [] => some rest
          | _ :: [] => some (rest.takeWhile (fun c => c != '/'))
          | _ => none

/-- A directory entry as collected by the listing operation. -/
structure DirectoryEntry where
  name : List Char
  info : StorageFileInfo
  deriving DecidableEq

/-- `HttpListDirectoryOperation::OnDavResponse` (lines 499-518) as the
entry produced, if any, from one record. -/
def HttpListDirectoryOperation.OnDavResponse (base_path : List Char)
    (r : DavResponse) : Option DirectoryEntry :=
  if r.status ≠ 200 then none
  else
    match HrefToEscapedName base_path r.href.toList with
    | none => none
    | some nm => some ⟨nm, infoFromRecord r⟩

/-- C2: for the Depth-1 listing with base path taken from the request URI
('/' when absent), a record yields an entry exactly as the claim's case
split over the stripped remainder of the href path says, and a non-200
record never yields one. -/
theorem C2_listing_entries (uri base_path : List Char)
    (_hbp : base_path = UriPathOrSlash uri) (r : DavResponse) :
    (r.status ≠ 200 →
      HttpListDirectoryOperation.OnDavResponse base_path r = none) ∧
    (r.status = 200 →
      (uriGetPath r.href.toList = none →
        HttpListDirectoryOperation.OnDavResponse base_path r = none) ∧
      (∀ p, uriGetPath r.href.toList = some p →
        (stringAfterPref base_path p = none →
          HttpListDirectoryOperation.OnDavResponse base_path r = none) ∧
        (stringAfterPref base_path p = some [] →
          HttpListDirectoryOperation.OnDavResponse base_path r = none) ∧
        (∀ rest, stringAfterPref base_path p = some rest → rest ≠ [] →
          ((('/' : Char) ∉ rest →
            (HttpListDirectoryOperation.OnDavResponse base_path r).map
                DirectoryEntry.name = some rest) ∧
           (∀ pre, rest = pre ++ ['/'] → ('/' : Char) ∉ pre →
            (HttpListDirectoryOperation.OnDavResponse base_path r).map
                DirectoryEntry.name = some pre) ∧
           (∀ pre c tl, rest = pre ++ '/' :: c :: tl → ('/' : Char) ∉ pre →
            HttpListDirectoryOperation.OnDavResponse base_path r = none))))) := by
  constructor
  · intro h
    simp [HttpListDirectoryOperation.OnDavResponse, h]
  · intro h200
    have hnot : ¬ (r.status ≠ 200) := by simp [h200]
    have hif : HttpListDirectoryOperation.OnDavResponse base_path r =
        (match HrefToEscapedName base_path r.href.toList with
         | none => none
         | some nm => some ⟨nm, infoFromRecord r⟩) := by
      unfold HttpListDirectoryOperation.OnDavResponse
      rw [if_neg hnot]
    constructor
    · intro hup
      rw [hif]
      unfold HrefToEscapedName
      rw [hup]
    · intro p hp
      have e1 : HrefToEscapedName base_path r.href.toList =
          (match stringAfterPref base_path p with
           | none => none
           | some [] => none
           | some rest =>
               match rest.dropWhile (fun c => c != '/') with
               | [] => some rest
               | _ :: [] => some (rest.takeWhile (fun c => c != '/'))
               | _ => none) := by
        unfold HrefToEscapedName
        rw [hp]
      refine ⟨?_, ?_, ?_⟩
      · intro hsp
        rw [hif, e1, hsp]
      · intro hsp
        rw [hif, e1, hsp]
      · intro rest hsp hne
        have hname : HrefToEscapedName base_path r.href.toList =
            (match rest.dropWhile (fun c => c != '/') with
             | [] => some rest
             | _ :: [] => some (rest.takeWhile (fun c => c != '/'))
             | _ => none) := by
          rw [e1, hsp]
          cases rest with
          | nil => exact absurd rfl hne
          | cons c t => rfl
        refine ⟨?_, ?_, ?_⟩
        · intro hns
          rw [hif, hname, dropWhile_ne_nil '/' rest hns]
          rfl
        · intro pre hpre hnp
          subst hpre
          obtain ⟨h1, h2⟩ := takeWhile_dropWhile_ne_append '/' pre [] hnp
          rw [hif, hname, h2, h1]
          rfl
        · intro pre c tl hpre hnp
          subst hpre
          obtain ⟨h1, h2⟩ := takeWhile_dropWhile_ne_append '/' pre (c :: tl) hnp
          rw [hif, hname, h2]

/-- Witness for C2 at a concrete listing base and record. -/
theorem C2_listing_entries_witness :
    (HttpListDirectoryOperation.OnDavResponse
        (UriPathOrSlash (("http://host/music/").toList))
        ⟨"/music/a.mp3", 200, false, Timestamp.unknown, 12345⟩).map
      DirectoryEntry.name = some (("a.mp3").toList) :=
  ((((C2_listing_entries (("http://host/music/").toList)
        (UriPathOrSlash (("http://host/music/").toList)) rfl
        ⟨"/music/a.mp3", 200, false, Timestamp.unknown, 12345⟩).2
      rfl).2 (("/music/a.mp3").toList) (by decide)).2.2
    (("a.mp3").toList) (by decide) (by decide)).1 (by decide)

/-- One XML callback event, with element names in expat's
post-namespace-processing form (namespace, '|' separator, local name). -/
inductive XmlEvent
  | startElement (name : String)
  | endElement (name : String)
  | characterData (text : String)
  deriving DecidableEq

/-- Dispatch of one event to the `PropfindOperation` callbacks. -/
def PropfindOperation.step (ps : PropfindState) (e : XmlEvent) :
    PropfindState × Option DavResponse :=
  match e with
  | XmlEvent.startElement n => (PropfindOperation.StartElement ps n, none)
  | XmlEvent.endElement n => PropfindOperation.EndElement ps n
  | XmlEvent.characterData s => (PropfindOperation.CharacterData ps s, none)

/-- Run the callbacks over an event sequence, collecting the emitted
records in order. -/
def runEvents (ps : PropfindState) (es : List XmlEvent) :
    PropfindState × List DavResponse :=
  es.foldl
    (fun acc e =>
      let st := PropfindOperation.step acc.1 e
      (st.1, acc.2 ++ st.2.toList))
    (ps, [])

/-- Tag text up to the closing '>', with the rest of the input. -/
def splitTagContent : List Char → Option (List Char × List Char)
  | [] => none
  | c :: rest =>
      if c = '>' then some ([], rest)
      else
        match splitTagContent rest with
        | none => none
        | some (t, r) => some (c :: t, r)

/-- Events of one tag body (the text between '<' and '>'). -/
def tagEvents (tag : List Char) : Option (List XmlEvent) :=
  match tag with
  | [] => none
  | '/' :: nameChars =>
      let nm := nameChars.takeWhile (fun c => c != ' ')
      if nm.isEmpty then none else some [XmlEvent.endElement ⟨nm⟩]
  | '?' :: _ => some []
  | '!' :: _ => some []
  | _ =>
      let closing := tag.getLast? = some '/'
      let core := if closing then tag.dropLast else tag
      let nm := core.takeWhile (fun c => c != ' ' && c != '/')
      if nm.isEmpty then none
      else if closing then
        some [XmlEvent.startElement ⟨nm⟩, XmlEvent.endElement ⟨nm⟩]
      else some [XmlEvent.startElement ⟨nm⟩]

/-- Modelled from the spec: the streaming XML tokenizer is an external
black box delivering start/end/text callbacks; this simple stand-in turns
a complete byte stream into the event list (attributes ignored, fuel
bounds the recursion). -/
def tokenizeAux : Nat → List Char → Option (List XmlEvent)
  | 0, l => if l.isEmpty then some [] else none
  | _ + 1, [] => some []
  | fuel + 1, c :: rest =>
      if c = '<' then
        match splitTagContent rest with
        | none => none
        | some (tag, rest') =>
            match tagEvents tag, tokenizeAux fuel rest' with
            | some evs, some evs' => some (evs ++ evs')
            | _, _ => none
      else
        match tokenizeAux fuel ((c :: rest).dropWhile (fun x => x != '<')) with
        | none => none
        | some evs =>
            some (XmlEvent.characterData
              ⟨(c :: rest).takeWhile (fun x => x != '<')⟩ :: evs)

/-- Tokenize a complete body. -/
def tokenize (l : List Char) : Option (List XmlEvent) :=
  tokenizeAux (l.length + 1) l

/-- Parse one complete body through the state machine: the records emitted
by a PROPFIND pass, or a parse error for malformed XML at stream end. -/
def parseBody (body : List Char) : Except String (List DavResponse) :=
  match tokenize body with
  | none => Except.error ("malformed XML")
  | some evs => Except.ok (runEvents initialPropfind evs).2

/-- The Content-Type test of `OnHeaders`: `strncmp` of the first eight
bytes against "text/xml". -/
def contentTypeIsXml (ct : String) : Bool :=
  ct.toList.take 8 == ("text/xml").toList

/-- `PropfindOperation::OnHeaders` (lines 272-283): a protocol error
unless the top-level status is 207 and the Content-Type is present and
begins with "text/xml". -/
def PropfindOperation.OnHeaders (status : Nat) (contentType : Option String) :
    Except String Unit :=
  if status ≠ 207 then
    Except.error ("Status " ++ toString status ++
      " from WebDAV server; expected 207 Multi-Status")
  else
    match contentType with
    | none => Except.error ("Unexpected Content-Type from WebDAV server")
    | some ct =>
        if contentTypeIsXml ct then Except.ok ()
        else Except.error ("Unexpected Content-Type from WebDAV server")

/-- The whole response processing in transport order: the headers are
examined before any body byte reaches the XML parse (`OnData`/`OnEnd`,
lines 285-293, run only after `OnHeaders` returned). -/
def runPropfind (status : Nat) (contentType : Option String)
    (body : List Char) : Except String (List DavResponse) :=
  match PropfindOperation.OnHeaders status contentType with
  | Except.error e => Except.error e
  | Except.ok _ => parseBody body

/-- C4: header validation fails the operation with a protocol error on a
non-207 status and on an absent or non-XML Content-Type, in both cases
independently of the body (no body byte is parsed); with status 207 and an
XML Content-Type it passes and body parsing proceeds. -/
theorem C4_header_validation (status : Nat) (ct : Option String)
    (body : List Char) :
    (status ≠ 207 →
      runPropfind status ct body =
        Except.error ("Status " ++ toString status ++
          " from WebDAV server; expected 207 Multi-Status") ∧
      runPropfind status ct body = runPropfind status ct []) ∧
    (status = 207 → ct = none →
      runPropfind status ct body =
        Except.error ("Unexpected Content-Type from WebDAV server") ∧
      runPropfind status ct body = runPropfind status ct []) ∧
    (∀ c, status = 207 → ct = some c → contentTypeIsXml c = false →
      runPropfind status ct body =
        Except.error ("Unexpected Content-Type from WebDAV server") ∧
      runPropfind status ct body = runPropfind status ct []) ∧
    (∀ c, status = 207 → ct = some c → contentTypeIsXml c = true →
      runPropfind status ct body = parseBody body) := by
  refine ⟨?_, ?_, ?_, ?_⟩
  · intro h
    constructor <;> simp [runPropfind, PropfindOperation.OnHeaders, h]
  · intro h hct
    subst h; subst hct
    constructor <;> simp [runPropfind, PropfindOperation.OnHeaders]
  · intro c h hct hxml
    subst h; subst hct
    constructor <;> simp [runPropfind, PropfindOperation.OnHeaders, hxml]
  · intro c h hct hxml
    subst h; subst hct
    simp [runPropfind, PropfindOperation.OnHeaders, hxml]

/-- Witness for C4: a status-200 response fails before the body, a 207
XML response proceeds to the body parse. -/
theorem C4_header_validation_witness :
    runPropfind 200 (some ("text/xml; charset=utf-8")) (("<x/>").toList) =
      Except.error ("Status " ++ toString 200 ++
        " from WebDAV server; expected 207 Multi-Status") ∧
    runPropfind 207 (some ("text/xml; charset=utf-8")) (("<x/>").toList) =
      parseBody (("<x/>").toList) :=
  ⟨((C4_header_validation 200 (some ("text/xml; charset=utf-8"))
      (("<x/>").toList)).1 (by decide)).1,
   (C4_header_validation 207 (some ("text/xml; charset=utf-8"))
      (("<x/>").toList)).2.2.2 _ rfl rfl (by decide)⟩

/-- Modelled from the spec: the expat collaborator is a black box whose
event sequence depends only on the concatenation of the byte chunks fed
through `Parse`; the chunk feeding of `OnData` plus the final end-of-stream
`Parse` of `OnEnd` is therefore modelled as accumulating the chunks and
tokenizing the whole stream at the end-of-stream call. -/
def feedChunks (chunks : List (List Char)) : Except String (List DavResponse) :=
  parseBody (chunks.foldl (fun acc c => acc ++ c) [])

/-- Helper: feeding every byte alone accumulates the original stream. -/
theorem foldl_append_singletons (body : List Char) : ∀ acc : List Char,
    (body.map (fun c => [c])).foldl (fun a c => a ++ c) acc = acc ++ body := by
  induction body with
  | nil => intro acc; simp
  | cons c t ih =>
      intro acc
      simp only [List.map_cons, List.foldl_cons, ih (acc ++ [c]),
        List.append_assoc, List.singleton_append]

/-- C6: the emitted record sequence of a body depends only on the
concatenation of the fed chunks, so any chunking — in particular feeding
the body one byte per call — gives the same outcome as one whole-body
call. -/
theorem C6_chunk_invariance (body : List Char) (chunks : List (List Char))
    (h : chunks.foldl (fun acc c => acc ++ c) [] = body) :
    feedChunks chunks = feedChunks [body] ∧
    feedChunks (body.map (fun c => [c])) = feedChunks [body] := by
  constructor
  · unfold feedChunks
    rw [h]
    simp only [List.foldl_cons, List.foldl_nil, List.nil_append]
  · unfold feedChunks
    rw [foldl_append_singletons body []]
    simp only [List.foldl_cons, List.foldl_nil, List.nil_append]

/-- Witness for C6: a mid-tag split of a small multistatus body. -/
theorem C6_chunk_invariance_witness :
    feedChunks [("<DAV:|response><DAV:|hr").toList,
                ("ef>/x</DAV:|href></DAV:|response>").toList] =
      feedChunks [("<DAV:|response><DAV:|href>/x</DAV:|href></DAV:|response>").toList] :=
  (C6_chunk_invariance
    (("<DAV:|response><DAV:|href>/x</DAV:|href></DAV:|response>").toList)
    [("<DAV:|response><DAV:|hr").toList,
     ("ef>/x</DAV:|href></DAV:|response>").toList] (by decide)).1

/-- Witness for C7 at a concrete state, record and pair of fragments. -/
theorem C7_text_overwrite_witness :
    PropfindOperation.CharacterData
        (PropfindOperation.CharacterData
          ⟨State.HREF, DavResponse.default⟩ ("/music/a.mp3")) ("/music/b.mp3") =
      PropfindOperation.CharacterData
        ⟨State.HREF, DavResponse.default⟩ ("/music/b.mp3") :=
  C7_text_overwrite State.HREF (Or.inl rfl) DavResponse.default
    ("/music/a.mp3") ("/music/b.mp3")

/-- Uppercase hexadecimal digit of a value below 16. -/
def hexDigit (n : Nat) : Char :=
  if n < 10 then Char.ofNat (48 + n) else Char.ofNat (55 + n)

/-- UTF-8 bytes of a unicode code point. -/
def utf8Bytes (n : Nat) : List Nat :=
  if n < 128 then [n]
  else if n < 2048 then [192 + n / 64, 128 + n % 64]
  else if n < 65536 then
    [224 + n / 4096, 128 + (n / 64) % 64, 128 + n % 64]
  else
    [240 + n / 262144, 128 + (n / 4096) % 64, 128 + (n / 64) % 64,
     128 + n % 64]

/-- Percent-escape of one byte. -/
def escapeByte (b : Nat) : List Char :=
  ['%', hexDigit (b / 16), hexDigit (b % 16)]

/-- Characters libcurl's `curl_easy_escape` leaves unescaped. -/
def curlUnreserved (c : Char) : Bool :=
  c.isAlphanum || c = '-' || c = '.' || c = '_' || c = '~'

/-- Model of `curl_easy_escape` (libcurl collaborator): unreserved
characters pass through, every other one is UTF-8 encoded and each byte
percent-escaped. -/
def curlEscape : List Char → List Char
  | [] => []
  | c :: rest =>
      (if curlUnreserved c then [c]
       else (utf8Bytes c.toNat).foldr (fun b acc => escapeByte b ++ acc) [])
      ++ curlEscape rest

/-- Modelled from the spec: `PathTraitsUTF8::Build` as used by `MapUTF8`
(fs/Traits is not among the provided sources); the spec describes
`MapUTF8` as percent-encoding the path and appending it to the base. -/
def pathBuild (a b : List Char) : List Char :=
  a ++ b

/-- `CurlStorage::MapUTF8` (lines 73-86). -/
def MapUTF8 (base path : List Char) : List Char :=
  if path.isEmpty then base
  else pathBuild base (curlEscape path)

/-- Modelled from the spec: `PathTraitsUTF8::Relative` as used by
`MapToRelativeUTF8` (fs/Traits is not among the provided sources): the
suffix after the base when the URI literally begins with it, no match
otherwise. -/
def pathRelative (base uri : List Char) : Option (List Char) :=
  if uri.take base.length = base then some (uri.drop base.length) else none

/-- `CurlStorage::MapToRelativeUTF8` (lines 88-94). -/
def MapToRelativeUTF8 (base uri : List Char) : Option (List Char) :=
  pathRelative base uri

/-- `CurlStorage::GetInfo` request URI (lines 427-436): plain string
concatenation of the base and the escaped path. -/
def getInfoUri (base path : List Char) : List Char :=
  base ++ curlEscape path

/-- `CurlStorage::OpenDirectory` request URI (lines 521-534): plain
concatenation, then a trailing slash is appended unless the result already
ends with one. -/
def openDirectoryUri (base path : List Char) : List Char :=
  let uri := base ++ curlEscape path
  if uri.getLast? = some '/' then uri else uri ++ ['/']

/-- Helper: a non-empty list is not `isEmpty`. -/
theorem isEmpty_false_of_ne {l : List Char} (h : l ≠ []) :
    l.isEmpty = false := by
  cases l with
  | nil => exact absurd rfl h
  | cons c t => rfl

/-- C8: `MapUTF8` of the empty path is the base unchanged; of a non-empty
path, the base with the percent-encoded path appended; in particular the
path "a b" yields the base followed by "a%20b". -/
theorem C8_maputf8 (base path : List Char) :
    (path = [] → MapUTF8 base path = base) ∧
    (path ≠ [] → MapUTF8 base path = base ++ curlEscape path) ∧
    MapUTF8 base (("a b").toList) = base ++ ("a%20b").toList := by
  have h2 : ∀ pth : List Char, pth ≠ [] →
      MapUTF8 base pth = base ++ curlEscape pth := by
    intro pth h
    unfold MapUTF8 pathBuild
    rw [isEmpty_false_of_ne h]
    rfl
  refine ⟨?_, h2 path, ?_⟩
  · intro h
    subst h
    rfl
  · rw [h2 (("a b").toList) (by decide),
        show curlEscape (("a b").toList) = ("a%20b").toList from by decide]

/-- Witness for C8 at a concrete base. -/
theorem C8_maputf8_witness :
    MapUTF8 (("http://host/music/").toList) [] =
      ("http://host/music/").toList ∧
    MapUTF8 (("http://host/music/").toList) (("a b").toList) =
      ("http://host/music/").toList ++ ("a%20b").toList :=
  ⟨(C8_maputf8 (("http://host/music/").toList) []).1 rfl,
   (C8_maputf8 (("http://host/music/").toList) (("a b").toList)).2.2⟩

/-- Helper: escaping is the identity on paths of unreserved characters. -/
theorem curlEscape_id : ∀ l : List Char,
    (∀ c ∈ l, curlUnreserved c = true) → curlEscape l = l := by
  intro l
  induction l with
  | nil => intro _; rfl
  | cons c t ih =>
      intro h
      have hc : curlUnreserved c = true := h c (List.mem_cons_self c t)
      have ht := ih (fun x hx => h x (List.mem_cons_of_mem c hx))
      simp [curlEscape, hc, ht]

/-- Helper: `take` of an append at the length of the left part. -/
theorem take_len_append (a b : List Char) : (a ++ b).take a.length = a := by
  induction a with
  | nil => rfl
  | cons c t ih => simp [List.take_succ_cons, ih]

/-- Helper: `drop` of an append at the length of the left part. -/
theorem drop_len_append (a b : List Char) : (a ++ b).drop a.length = b := by
  induction a with
  | nil => rfl
  | cons c t ih => simp [ih]

/-- C9: for a path whose characters need no percent-encoding, mapping the
path to its URI and back is the identity and never the no-match result. -/
theorem C9_roundtrip (base path : List Char)
    (h : ∀ c ∈ path, curlUnreserved c = true) :
    MapToRelativeUTF8 base (MapUTF8 base path) = some path := by
  by_cases hp : path = []
  · subst hp
    unfold MapUTF8 MapToRelativeUTF8 pathRelative
    simp
  · unfold MapUTF8 pathBuild MapToRelativeUTF8 pathRelative
    rw [isEmpty_false_of_ne hp]
    simp only [Bool.false_eq_true, if_false]
    rw [curlEscape_id path h, if_pos (take_len_append base path),
        drop_len_append]

/-- Witness for C9 at a concrete base and unreserved path. -/
theorem C9_roundtrip_witness :
    MapToRelativeUTF8 (("http://host/").toList)
        (MapUTF8 (("http://host/").toList) (("music").toList)) =
      some (("music").toList) :=
  C9_roundtrip (("http://host/").toList) (("music").toList) (by decide)

/-- Counterexample to C10 as stated: at a base without a trailing slash
and a non-empty path — exactly where the claim's mechanism predicts that
`MapUTF8` inserts a '/' and so differs from the request URI — the two are
equal under the spec-modelled path join, which plainly appends. -/
theorem C10_counterexample :
    getInfoUri (("http://host/music").toList) (("a").toList) =
        MapUTF8 (("http://host/music").toList) (("a").toList) ∧
    (("http://host/music").toList).getLast? ≠ some '/' :=
  ⟨by decide, by decide⟩

/-- C10 (amended): for every non-empty path, `GetInfo` and `OpenDirectory`
build the request URI by direct concatenation of the base and the
percent-encoded path; under the spec's description of `MapUTF8` (plain
append of the encoded path) this URI equals `MapUTF8` of the path; and
`OpenDirectory` appends a '/' exactly when the concatenated URI does not
already end with one. -/
theorem C10_request_uri (base path : List Char) (h : path ≠ []) :
    getInfoUri base path = base ++ curlEscape path ∧
    getInfoUri base path = MapUTF8 base path ∧
    openDirectoryUri base path =
      (if (base ++ curlEscape path).getLast? = some '/' then
        base ++ curlEscape path
       else base ++ curlEscape path ++ ['/']) := by
  refine ⟨rfl, ?_, rfl⟩
  unfold getInfoUri MapUTF8 pathBuild
  rw [isEmpty_false_of_ne h]
  simp only [Bool.false_eq_true, if_false]

/-- Witness for C10 (amended) at a concrete base and path. -/
theorem C10_request_uri_witness :
    getInfoUri (("http://host/music/").toList) (("a b").toList) =
      MapUTF8 (("http://host/music/").toList) (("a b").toList) :=
  (C10_request_uri (("http://host/music/").toList) (("a b").toList)
    (by decide)).2.1

/-- Sanity check: one status-200 non-collection record of length 12345
makes the info operation report a regular file of that size. -/
example :
    getInfoResult [⟨"/music/song.mp3", 200, false, Timestamp.unknown, 12345⟩] =
      ⟨FileType.REGULAR, 12345, Timestamp.unknown⟩ := rfl

/-- Sanity check: a minimal multistatus body parses to one record carrying
its href. -/
example :
    parseBody (("<DAV:|response><DAV:|href>/x</DAV:|href></DAV:|response>").toList) =
      Except.ok [⟨"/x", 0, false, Timestamp.unknown, 0⟩] := rfl
